import Mathlib

/-!
Shallow embedding of the befunge93-rs execution engine (src/lib.rs) and
proofs about its specification claims.

Modelling conventions:
* Rust `isize` values are modelled as unbounded `Int`; `usize` casts of
  possibly-negative values go through `asUsize`, which reproduces the
  two's-complement wrap of `as usize` on a 64-bit target.
* Rust `Vec` push/pop at the back is modelled as a `List` with its head as
  the top of the stack.
* Rust panics (out-of-bounds indexing such as `self.program[i][j]`) are a
  distinct outcome `StepResult.panic`, separate from `InterpreterError`.
* The injected I/O capabilities are modelled as character streams inside
  the state; the injected RNG is modelled as a function from draw index to
  a choice among the four directions.
* Truncating division and remainder (`Int.tdiv`, `Int.tmod`) model Rust's
  `/` and `%` on signed integers.
-/

namespace Befunge93

/-- Direction of the program counter, as in the source `enum Direction`. -/
inductive Direction where
  | left
  | right
  | up
  | down
deriving DecidableEq

/-- The constant `DIRECTIONS` array from the source. -/
def DIRECTIONS : List Direction := [.left, .right, .up, .down]

/-- Interpreter mode, as in the source `enum Mode`. -/
inductive Mode where
  | normal
  | string
deriving DecidableEq

/-- The source `struct Stack<T>` instantiated at `T = isize`: a vector of
values plus the default returned when popping an empty stack. The head of
`inner` is the top (the back of the Rust `Vec`). -/
structure Stack where
  inner : List Int
  default : Int
deriving DecidableEq

/-- Source `Stack::new(default)`. -/
def Stack.new (default : Int) : Stack :=
  { inner := [], default := default }

/-- Source `Stack::pop`: `self.inner.pop().unwrap_or(self.default)`. -/
def Stack.pop (s : Stack) : Int × Stack :=
  match s.inner with
  | [] => (s.default, s)
  | v :: rest => (v, { s with inner := rest })

/-- Source `Stack::pop2`: two sequential pops, first popped value first. -/
def Stack.pop2 (s : Stack) : (Int × Int) × Stack :=
  let (a, s1) := s.pop
  let (b, s2) := s1.pop
  ((a, b), s2)

/-- Source `Stack::push`. -/
def Stack.push (s : Stack) (v : Int) : Stack :=
  { s with inner := v :: s.inner }

/-- The error enum `InterpreterError` from the source (`IoError` carries no
payload in the model; `ParseError` likewise). -/
inductive InterpreterError where
  | ioErr
  | unknownInstruction (c : Char)
  | invalidAscii (v : Int)
  | invalidCoordinates (x y : Int)
  | parseErr
deriving DecidableEq

/-- The interpreter state: the fields of the source `struct Interpreter`.
`input` and `output` model the injected I/O capabilities as byte/char
streams; `gen`/`genCount` model the injected RNG as an oracle indexed by
the number of draws made so far. -/
structure Interpreter where
  stack : Stack
  program : List (List Char)
  pc : Nat × Nat
  direction : Direction
  width : Nat
  height : Nat
  mode : Mode
  input : List Char
  output : List Char
  gen : Nat → Fin 4
  genCount : Nat
  running : Bool

/-- Source `Interpreter::new(input, output, gen)`: empty stack with default
0, empty program, pc (0,0), heading Right, size 0x0, Normal mode, not
running. -/
def Interpreter.new (input : List Char) (gen : Nat → Fin 4) : Interpreter :=
  { stack := Stack.new 0
    program := []
    pc := (0, 0)
    direction := .right
    width := 0
    height := 0
    mode := .normal
    input := input
    output := []
    gen := gen
    genCount := 0
    running := false }

/-- Result of one instruction helper: either the mutated state, or an error
together with the state as already mutated when the error was raised (Rust
returns `Err` but keeps all `&mut self` mutations made so far). -/
def InstrResult : Type := Except (InterpreterError × Interpreter) Interpreter

/-- Outcome of `step`/`run`: a Rust panic (out-of-bounds slice index), an
`Err` return carrying the mutated state, or an `Ok` return. -/
inductive StepResult where
  | panic
  | err (e : InterpreterError) (s : Interpreter)
  | ok (s : Interpreter)

/-- Drop a single trailing carriage return, as Rust `str::lines` does for
`\r\n` line endings. -/
def stripCr (l : List Char) : List Char :=
  if l.getLast? = some '\x0d' then l.dropLast else l

/-- Worker for `rustLines`: accumulates the current line in reverse. -/
def rustLinesAux : List Char → List Char → List (List Char)
  | [], acc => if acc.isEmpty then [] else [acc.reverse]
  | c :: rest, acc =>
    if c = '\n' then stripCr acc.reverse :: rustLinesAux rest []
    else rustLinesAux rest (c :: acc)

/-- Rust `str::lines`: lines split at `\n` (or `\r\n`), with a final line
ending optional and an empty string yielding no lines. Each line is kept
as its character sequence. -/
def rustLines (text : String) : List (List Char) :=
  rustLinesAux text.toList []

/-- Rust `str::len` of a line: its length in UTF-8 bytes (the source uses
`line.len()` for the grid width while copying per `char`). -/
def lineByteLen (l : List Char) : Nat :=
  (l.map Char.utf8Size).sum

/-- One assignment `self.program[i][j] = c` of the loader loop. The
out-of-range row case is unreachable in the loader (every written row
index is below the row count). -/
def setCell (g : List (List Char)) (i j : Nat) (c : Char) : List (List Char) :=
  match g[i]? with
  | none => g
  | some row => g.set i (row.set j c)

/-- The loader's nested copy loop: for `(i, line)` in the enumerated lines,
for `(j, c)` in the enumerated characters, write cell `(i, j)`. -/
def writeProgram (g : List (List Char)) (ls : List (List Char)) : List (List Char) :=
  ls.enum.foldl
    (fun g1 il => il.2.enum.foldl (fun g2 jc => setCell g2 il.1 jc.1 jc.2) g1) g

/-- Source `Interpreter::load_program`: longest line length (in bytes) and
line count give the new dimensions; the grid is pre-filled with spaces and
then every source character is copied in. The source returns `Ok(())`
unconditionally and touches no other field. -/
def loadProgram (text : String) (itp : Interpreter) : Interpreter :=
  let ls := rustLines text
  let longest_line_len := (ls.map lineByteLen).foldl Nat.max 0
  let rows_len := ls.length
  let grid := writeProgram (List.replicate rows_len (List.replicate longest_line_len ' ')) ls
  { itp with program := grid, width := longest_line_len, height := rows_len }

/-- Source `Interpreter::get_instruction`: `self.program[i][j]` at the
current pc; `none` models the Rust index-out-of-bounds panic. -/
def get_instruction (s : Interpreter) : Option Char :=
  (s.program[s.pc.1]?).bind (fun row => row[s.pc.2]?)

/-- Source `Interpreter::move_pc`: toroidal advance of the pc in the
current direction. (With a zero width or height the Rust code would panic
on `x % 0` or underflow on `width - 1`; in Lean `x % 0 = x` and `0 - 1 = 0`.
`move_pc` is only reached after a successful fetch, which forces the
grid to be non-degenerate, so the divergence is unreachable from `step`.) -/
def move_pc (s : Interpreter) : Interpreter :=
  match s.direction with
  | .left =>
    { s with pc := (s.pc.1, if s.pc.2 = 0 then s.width - 1 else s.pc.2 - 1) }
  | .right => { s with pc := (s.pc.1, (s.pc.2 + 1) % s.width) }
  | .up =>
    { s with pc := ((if s.pc.1 = 0 then s.height - 1 else s.pc.1 - 1), s.pc.2) }
  | .down => { s with pc := ((s.pc.1 + 1) % s.height, s.pc.2) }

/-- Rust `v as usize` on a 64-bit target: two's-complement wrap into
`[0, 2^64)`. -/
def asUsize (v : Int) : Nat :=
  (v % (2 ^ 64 : Nat)).toNat

/-- Source `Interpreter::pop_ascii`: pop a value and convert it to a byte,
failing with `InvalidAscii` (value already popped) when it is not in
`[0, 255]`. -/
def pop_ascii (s : Interpreter) : Except (InterpreterError × Interpreter) (Char × Interpreter) :=
  let (v, st) := s.stack.pop
  let s1 := { s with stack := st }
  if 0 ≤ v ∧ v ≤ 255 then .ok (Char.ofNat v.toNat, s1)
  else .error (.invalidAscii v, s1)

/-- Source `push_digit_to_stack`: re-fetch the instruction and push its
digit value. Only dispatched on ASCII digits, so the fetch succeeds and
the character code is in `['0'..'9']`. -/
def push_digit_to_stack (s : Interpreter) : InstrResult :=
  match get_instruction s with
  | none => .ok s
  | some instruction => .ok { s with stack := s.stack.push ((instruction.toNat - 48 : Nat) : Int) }

/-- Source `add`: pop a, pop b, push `a + b`. -/
def add (s : Interpreter) : InstrResult :=
  let ((a, b), st) := s.stack.pop2
  .ok { s with stack := st.push (a + b) }

/-- Source `subtract`: pop a, pop b, push `b - a`. -/
def subtract (s : Interpreter) : InstrResult :=
  let ((a, b), st) := s.stack.pop2
  .ok { s with stack := st.push (b - a) }

/-- Source `multiply`: pop a, pop b, push `a * b`. -/
def multiply (s : Interpreter) : InstrResult :=
  let ((a, b), st) := s.stack.pop2
  .ok { s with stack := st.push (a * b) }

/-- Source `divide`: pop a, pop b, push 0 if `a == 0` else the truncating
quotient `b / a`. -/
def divide (s : Interpreter) : InstrResult :=
  let ((a, b), st) := s.stack.pop2
  .ok { s with stack := st.push (if a = 0 then 0 else b.tdiv a) }

/-- Source `remainder`: pop a, pop b, push 0 if `a == 0` else the
truncating remainder `b % a`. -/
def remainder (s : Interpreter) : InstrResult :=
  let ((a, b), st) := s.stack.pop2
  .ok { s with stack := st.push (if a = 0 then 0 else b.tmod a) }

/-- Source `logical_not`. -/
def logical_not (s : Interpreter) : InstrResult :=
  let (a, st) := s.stack.pop
  .ok { s with stack := st.push (if a = 0 then 1 else 0) }

/-- Source `greater_than` (the backquote instruction). -/
def greater_than (s : Interpreter) : InstrResult :=
  let ((a, b), st) := s.stack.pop2
  .ok { s with stack := st.push (if b > a then 1 else 0) }

/-- Source `start_moving_right`. -/
def start_moving_right (s : Interpreter) : InstrResult :=
  .ok { s with direction := .right }

/-- Source `start_moving_left`. -/
def start_moving_left (s : Interpreter) : InstrResult :=
  .ok { s with direction := .left }

/-- Source `start_moving_up`. -/
def start_moving_up (s : Interpreter) : InstrResult :=
  .ok { s with direction := .up }

/-- Source `start_moving_down`. -/
def start_moving_down (s : Interpreter) : InstrResult :=
  .ok { s with direction := .down }

/-- Source `start_moving_randomly`: draw one choice among `DIRECTIONS`
from the RNG oracle. -/
def start_moving_randomly (s : Interpreter) : InstrResult :=
  let d := DIRECTIONS.get (Fin.cast (by decide) (s.gen s.genCount))
  .ok { s with direction := d, genCount := s.genCount + 1 }

/-- Source `horizontal_if`. -/
def horizontal_if (s : Interpreter) : InstrResult :=
  let (n, st) := s.stack.pop
  .ok { s with stack := st, direction := if n = 0 then .right else .left }

/-- Source `vertical_if`. -/
def vertical_if (s : Interpreter) : InstrResult :=
  let (n, st) := s.stack.pop
  .ok { s with stack := st, direction := if n = 0 then .down else .up }

/-- Source `toggle_string_mode`. -/
def toggle_string_mode (s : Interpreter) : InstrResult :=
  .ok { s with mode := if s.mode = .normal then .string else .normal }

/-- Source `duplicate_top_of_the_stack`. -/
def duplicate_top_of_the_stack (s : Interpreter) : InstrResult :=
  let (n, st) := s.stack.pop
  .ok { s with stack := (st.push n).push n }

/-- Source `swap_top_stack_values`. -/
def swap_top_stack_values (s : Interpreter) : InstrResult :=
  let ((a, b), st) := s.stack.pop2
  .ok { s with stack := (st.push a).push b }

/-- Source `pop_and_discard`. -/
def pop_and_discard (s : Interpreter) : InstrResult :=
  let (_, st) := s.stack.pop
  .ok { s with stack := st }

/-- Source `pop_and_output_int`: write the decimal representation. The
modelled output sink never fails. -/
def pop_and_output_int (s : Interpreter) : InstrResult :=
  let (n, st) := s.stack.pop
  .ok { s with stack := st, output := s.output ++ (toString n).toList }

/-- Source `pop_and_output_char`: `pop_ascii` then write the byte. -/
def pop_and_output_char (s : Interpreter) : InstrResult :=
  match pop_ascii s with
  | .error es => .error es
  | .ok (c, s1) => .ok { s1 with output := s1.output ++ [c] }

/-- All-digit parse of a natural number, empty input rejected. -/
def parseDigits : List Char → Option Nat
  | [] => none
  | cs =>
    if cs.all Char.isDigit then
      some (cs.foldl (fun n c => 10 * n + (c.toNat - 48)) 0)
    else none

/-- Rust `str::parse::<isize>` on trimmed text: optional sign then digits. -/
def parseIsize (cs : List Char) : Option Int :=
  match cs with
  | '+' :: rest => (parseDigits rest).map Int.ofNat
  | '-' :: rest => (parseDigits rest).map (fun n => -(Int.ofNat n))
  | _ => (parseDigits cs).map Int.ofNat

/-- Rust `char::is_whitespace`, restricted to the ASCII whitespace that the
modelled byte streams can carry. -/
def isWs (c : Char) : Bool :=
  c = ' ' ∨ c = '\n' ∨ c = '\t' ∨ c = '\x0d'

/-- Rust `str::trim`. -/
def rustTrim (cs : List Char) : List Char :=
  ((cs.dropWhile isWs).reverse.dropWhile isWs).reverse

/-- Source `get_int_and_push`: `read_line` (consume up to and including the
next newline; a drained stream reads zero bytes without error), trim,
parse as `isize` (failing with `ParseError`, input already consumed), and
push. -/
def get_int_and_push (s : Interpreter) : InstrResult :=
  let line := s.input.takeWhile (fun c => c ≠ '\n')
  let rest := s.input.drop (line.length + 1)
  let consumed := s.input.take (line.length + 1)
  let s1 := { s with input := rest }
  match parseIsize (rustTrim consumed) with
  | none => .error (.parseErr, s1)
  | some n => .ok { s1 with stack := s1.stack.push n }

/-- Source `get_char_and_push`: `read_exact` of one byte, failing with
`IoError` when the stream is drained; push the byte value. -/
def get_char_and_push (s : Interpreter) : InstrResult :=
  match s.input with
  | [] => .error (.ioErr, s)
  | c :: rest => .ok { s with input := rest, stack := s.stack.push ((c.toNat % 256 : Nat) : Int) }

/-- Source `bridge`: one extra `move_pc` this cycle. -/
def bridge (s : Interpreter) : InstrResult :=
  .ok (move_pc s)

/-- Source `put`: pop y, pop x; negative coordinates fail immediately
(only those two values popped); then `pop_ascii` for the value (third
pop), and an out-of-range cell fails with `InvalidCoordinates`. -/
def put (s : Interpreter) : InstrResult :=
  let (y, st1) := s.stack.pop
  let s1 := { s with stack := st1 }
  let (x, st2) := s1.stack.pop
  let s2 := { s1 with stack := st2 }
  if y < 0 ∨ x < 0 then .error (.invalidCoordinates x y, s2)
  else
    match pop_ascii s2 with
    | .error es => .error es
    | .ok (v, s3) =>
      match s3.program[asUsize y]? with
      | none => .error (.invalidCoordinates x y, s3)
      | some row =>
        match row[asUsize x]? with
        | none => .error (.invalidCoordinates x y, s3)
        | some _ =>
          .ok { s3 with program := s3.program.set (asUsize y) (row.set (asUsize x) v) }

/-- The grid-read instruction `g` (source method `get`): pop y, pop x, cast
both to `usize` with wrap, fail with `InvalidCoordinates` when the cell is
out of range, else push the cell's character code. -/
def get_ (s : Interpreter) : InstrResult :=
  let (y, st1) := s.stack.pop
  let s1 := { s with stack := st1 }
  let (x, st2) := s1.stack.pop
  let s2 := { s1 with stack := st2 }
  match s2.program[asUsize y]? with
  | none => .error (.invalidCoordinates x y, s2)
  | some row =>
    match row[asUsize x]? with
    | none => .error (.invalidCoordinates x y, s2)
    | some c => .ok { s2 with stack := s2.stack.push ((c.toNat : Nat) : Int) }

/-- The Normal-mode dispatch table of `step` (the source `match` on the
fetched instruction). The backquote case is written via `Char.ofNat 96`. -/
def dispatch (instruction : Char) (s : Interpreter) : InstrResult :=
  match instruction with
  | '+' => add s
  | '-' => subtract s
  | '*' => multiply s
  | '/' => divide s
  | '%' => remainder s
  | '!' => logical_not s
  | '>' => start_moving_right s
  | '<' => start_moving_left s
  | '^' => start_moving_up s
  | 'v' => start_moving_down s
  | '?' => start_moving_randomly s
  | '_' => horizontal_if s
  | '|' => vertical_if s
  | '"' => toggle_string_mode s
  | ':' => duplicate_top_of_the_stack s
  | '\\' => swap_top_stack_values s
  | '$' => pop_and_discard s
  | '.' => pop_and_output_int s
  | ',' => pop_and_output_char s
  | '#' => bridge s
  | 'p' => put s
  | 'g' => get_ s
  | '&' => get_int_and_push s
  | '~' => get_char_and_push s
  | ' ' => .ok s
  | '@' => .ok { s with running := false }
  | c =>
    if c = Char.ofNat 96 then greater_than s
    else if c.isDigit then push_digit_to_stack s
    else .error (.unknownInstruction c, s)

/-- Source `Interpreter::step`: no-op on an empty (zero-row) program; else
set `running = true`, fetch (panicking when the pc is outside the grid),
handle string mode (`(instruction as u8)` truncates the character code to
a byte), else dispatch; finally advance the pc — also after the halt
instruction, and only when no error occurred. -/
def step (s0 : Interpreter) : StepResult :=
  if s0.program.isEmpty then .ok s0
  else
    let s := { s0 with running := true }
    match get_instruction s with
    | none => .panic
    | some instruction =>
      if s.mode = Mode.string then
        if instruction = '"' then
          match toggle_string_mode s with
          | .error (e, t) => .err e t
          | .ok t => .ok (move_pc t)
        else
          .ok (move_pc { s with stack := s.stack.push ((instruction.toNat % 256 : Nat) : Int) })
      else
        match dispatch instruction s with
        | .error (e, t) => .err e t
        | .ok t => .ok (move_pc t)

/-- The `while self.running` loop of `run`, with explicit fuel; `none`
models running out of fuel with the loop still live. -/
def runLoop : Nat → Interpreter → Option StepResult
  | 0, s => if s.running then none else some (.ok s)
  | n + 1, s =>
    if s.running then
      match step s with
      | .panic => some .panic
      | .err e t => some (.err e t)
      | .ok t => runLoop n t
    else some (.ok s)

/-- Source `Interpreter::run`: `Ok(())` at once on an empty program, else
set `running = true` and step until it clears or an error/panic occurs. -/
def run (fuel : Nat) (s : Interpreter) : Option StepResult :=
  if s.program.isEmpty then some (.ok s)
  else runLoop fuel { s with running := true }

/-- A concrete engine as built by the repository's test helper: empty
input, a fixed RNG oracle. -/
def testItp : Interpreter :=
  Interpreter.new [] (fun _ => 0)

/-- Iterate `step` from a state, keeping only all-`Ok` prefixes. -/
def afterSteps : Nat → Interpreter → Option Interpreter
  | 0, s => some s
  | n + 1, s =>
    match step s with
    | .ok t => afterSteps n t
    | _ => none

/-- Extract the final state of a successful `run`. -/
def finalState : Option StepResult → Option Interpreter
  | some (.ok s) => some s
  | _ => none

/-- Extract the stack contents (top first) of a successful `run`. -/
def finalStack (r : Option StepResult) : Option (List Int) :=
  (finalState r).map (fun s => s.stack.inner)

/-- Extract the state of an `Ok` step outcome. -/
def stepOkState : StepResult → Option Interpreter
  | .ok s => some s
  | _ => none

/-- Extract the error and the mutated state of an `Err` step outcome. -/
def stepErrState : StepResult → Option (InterpreterError × Interpreter)
  | .err e s => some (e, s)
  | _ => none

/-- The state carried by an instruction helper's result, whether `Ok` or
`Err`. -/
def InstrResult.stateOf : InstrResult → Interpreter
  | .ok t => t
  | .error (_, t) => t

/-- Whether a step outcome is the Rust panic. -/
def isPanic : StepResult → Bool
  | .panic => true
  | _ => false

/-- A 1x1 grid holding `p`, with stack (top first) `-1, 3, 1`: the put
instruction pops `y = -1`, then `x = 3`, and fails the sign check. -/
def putNegState : Interpreter :=
  { testItp with
    program := [['p']]
    width := 1
    height := 1
    stack := { inner := [-1, 3, 1], default := 0 } }

/-- A 1x1 grid whose only cell is the character with code 256 (`Ā`), with
the engine in string-literal mode. -/
def stringModeState : Interpreter :=
  { testItp with
    program := [[Char.ofNat 256]]
    width := 1
    height := 1
    mode := .string }

/-- A 1x1 grid holding `p`, with stack (top first) `0, 0, 300, 9`: the
sign check passes and the third pop yields 300, which is not a byte. -/
def putAsciiState : Interpreter :=
  { testItp with
    program := [['p']]
    width := 1
    height := 1
    stack := { inner := [0, 0, 300, 9], default := 0 } }

/-- A 1x1 grid holding `p`, with stack (top first) `5, 0, 65, 9`: the sign
check passes, the third pop yields the valid byte 65, and row 5 does not
exist, so the grid lookup fails after all three pops. -/
def putOobState : Interpreter :=
  { testItp with
    program := [['p']]
    width := 1
    height := 1
    stack := { inner := [5, 0, 65, 9], default := 0 } }

/-- A 1x1 grid holding the halt instruction. -/
def haltState : Interpreter :=
  { testItp with
    program := [['@']]
    width := 1
    height := 1 }

/-- A 1x1 grid holding `+`, with stack (top first) `2, 3`. -/
def addState : Interpreter :=
  { testItp with
    program := [['+']]
    width := 1
    height := 1
    stack := { inner := [2, 3], default := 0 } }

/- ------------------------------------------------------------------ -/
/- Theorems                                                           -/
/- ------------------------------------------------------------------ -/

/-- A successful fetch forces the grid to have at least one row. -/
theorem program_ne_nil_of_fetch (s : Interpreter) (c : Char)
    (hc : get_instruction s = some c) : s.program.isEmpty = false := by
  cases hp : s.program with
  | nil =>
    unfold get_instruction at hc
    rw [hp] at hc
    simp at hc
  | cons l ls => rfl

/-- Reduction of `step` in string-literal mode: the quote toggles the mode
back to Normal, every other character pushes its code truncated to a byte,
and in both cases the cursor advances. -/
theorem step_string_mode (s : Interpreter) (c : Char) (hm : s.mode = .string)
    (hc : get_instruction s = some c) :
    step s = if c = '"'
      then .ok (move_pc { s with running := true, mode := .normal })
      else .ok (move_pc
        { s with
          running := true
          stack := s.stack.push ((c.toNat % 256 : Nat) : Int) }) := by
  have hne := program_ne_nil_of_fetch s c hc
  have hc' : get_instruction { s with running := true } = some c := hc
  unfold step
  simp only [hne, Bool.false_eq_true, if_false]
  rw [hc']
  simp only [hm, toggle_string_mode]
  by_cases hq : c = '"' <;> simp [hq]

/-- Reduction of `step` in Normal mode to the dispatch table: an `Ok`
dispatch advances the cursor, an `Err` dispatch returns the mutated state
without advancing. -/
theorem step_normal_mode (s : Interpreter) (c : Char) (hm : s.mode = .normal)
    (hc : get_instruction s = some c) :
    step s = match dispatch c { s with running := true } with
      | .error (e, t) => .err e t
      | .ok t => .ok (move_pc t) := by
  have hne := program_ne_nil_of_fetch s c hc
  have hc' : get_instruction { s with running := true } = some c := hc
  unfold step
  simp only [hne, Bool.false_eq_true, if_false]
  rw [hc']
  simp only [hm]
  rw [if_neg (fun h => Mode.noConfusion h)]

/-- Fetching ignores the `running` flag. -/
theorem get_instruction_set_running (s : Interpreter) (b : Bool) :
    get_instruction { s with running := b } = get_instruction s := rfl

/-- Advancing the cursor touches only the pc. -/
theorem move_pc_fields (s : Interpreter) :
    (move_pc s).running = s.running ∧ (move_pc s).mode = s.mode
    ∧ (move_pc s).stack = s.stack ∧ (move_pc s).program = s.program
    ∧ (move_pc s).width = s.width ∧ (move_pc s).height = s.height
    ∧ (move_pc s).direction = s.direction := by
  unfold move_pc
  cases s.direction <;> exact ⟨rfl, rfl, rfl, rfl, rfl, rfl, rfl⟩

/-- Claim C5 (amended): in Normal mode the halt instruction `@` clears the
`running` flag, and the cursor is still advanced one cell that cycle (the
advance after dispatch is unconditional on the success path). -/
theorem c5_halt_amended (s : Interpreter) (hm : s.mode = .normal)
    (hc : get_instruction s = some '@') :
    step s = .ok (move_pc { s with running := false }) := by
  rw [step_normal_mode s '@' hm hc]
  rfl

/-- Claim C5 witness: on the 1x1 grid `@`, stepping halts and advances. -/
theorem c5_halt_amended_witness :
    get_instruction haltState = some '@'
    ∧ step haltState = .ok (move_pc { haltState with running := false }) :=
  ⟨rfl, c5_halt_amended haltState rfl rfl⟩

/-- Claim C6 (amended): `p` pops `y` then `x` and validates the signs
before the third pop. A negative `x` or `y` fails with
`InvalidCoordinates` having popped only those two values, leaving the
stack shrunk by two; the value `v` is popped third (after the sign check),
so an `InvalidAscii` failure and an out-of-bounds `InvalidCoordinates`
failure (grid cell lookup after a valid byte) both leave the stack shrunk
by three. -/
theorem c6_put_amended (s : Interpreter) (hm : s.mode = .normal)
    (hc : get_instruction s = some 'p') :
    (∀ y x rest, s.stack.inner = y :: x :: rest → (y < 0 ∨ x < 0) →
      step s = .err (.invalidCoordinates x y)
        { s with running := true, stack := { s.stack with inner := rest } })
    ∧ (∀ y x v rest, s.stack.inner = y :: x :: v :: rest → ¬(y < 0 ∨ x < 0) →
        (v < 0 ∨ 255 < v) →
      step s = .err (.invalidAscii v)
        { s with running := true, stack := { s.stack with inner := rest } })
    ∧ (∀ y x v rest, s.stack.inner = y :: x :: v :: rest → ¬(y < 0 ∨ x < 0) →
        (0 ≤ v ∧ v ≤ 255) →
        (s.program[asUsize y]?).bind (fun row => row[asUsize x]?) = none →
      step s = .err (.invalidCoordinates x y)
        { s with running := true, stack := { s.stack with inner := rest } }) := by
  rw [step_normal_mode s 'p' hm hc]
  simp only [dispatch]
  refine ⟨?_, ?_, ?_⟩
  · intro y x rest hs hyx
    unfold put
    simp [Stack.pop, hs, hyx]
  · intro y x v rest hs hyx hv
    have hv' : ¬(0 ≤ v ∧ v ≤ 255) := by omega
    unfold put
    simp [Stack.pop, pop_ascii, hs, hyx, hv']
  · intro y x v rest hs hyx hv hcell
    unfold put
    rcases hrow : s.program[asUsize y]? with _ | row
    · simp [Stack.pop, pop_ascii, hs, hyx, hv, hrow]
    · rw [hrow] at hcell
      simp only [Option.some_bind] at hcell
      simp [Stack.pop, pop_ascii, hs, hyx, hv, hrow, hcell]

/-- Claim C6 witness: with stack (top first) `-1, 3, 1` the sign check
fails after two pops; with stack `0, 0, 300, 9` the byte check fails after
three pops; with stack `5, 0, 65, 9` the grid lookup at row 5 fails after
three pops. -/
theorem c6_put_amended_witness :
    get_instruction putNegState = some 'p'
    ∧ step putNegState = .err (.invalidCoordinates 3 (-1))
        { putNegState with running := true, stack := { putNegState.stack with inner := [1] } }
    ∧ step putAsciiState = .err (.invalidAscii 300)
        { putAsciiState with running := true, stack := { putAsciiState.stack with inner := [9] } }
    ∧ step putOobState = .err (.invalidCoordinates 0 5)
        { putOobState with running := true, stack := { putOobState.stack with inner := [9] } } :=
  ⟨rfl,
    (c6_put_amended putNegState rfl rfl).1 (-1) 3 [1] rfl (by decide),
    (c6_put_amended putAsciiState rfl rfl).2.1 0 0 300 [9] rfl (by decide) (by decide),
    (c6_put_amended putOobState rfl rfl).2.2 5 0 65 [9] rfl (by decide) (by decide) rfl⟩

/-- Claim C7: for the binary arithmetic instructions, with `a` the first
value popped and `b` the second, the pushed value is `a + b`, `b - a`,
`a * b`, `b / a` and `b % a` (truncating division/remainder, 0 when
`a = 0`); concretely, running `"12-@"` leaves `-1` on top of the stack and
running `"70/@"` leaves `0`. -/
theorem c7_arithmetic_ops (s : Interpreter) (a b : Int) (rest : List Int)
    (hm : s.mode = .normal) (hs : s.stack.inner = a :: b :: rest) :
    (get_instruction s = some '+' → step s = .ok (move_pc
      { s with running := true, stack := { s.stack with inner := (a + b) :: rest } }))
    ∧ (get_instruction s = some '-' → step s = .ok (move_pc
      { s with running := true, stack := { s.stack with inner := (b - a) :: rest } }))
    ∧ (get_instruction s = some '*' → step s = .ok (move_pc
      { s with running := true, stack := { s.stack with inner := (a * b) :: rest } }))
    ∧ (get_instruction s = some '/' → step s = .ok (move_pc
      { s with
        running := true
        stack := { s.stack with inner := (if a = 0 then 0 else b.tdiv a) :: rest } }))
    ∧ (get_instruction s = some '%' → step s = .ok (move_pc
      { s with
        running := true
        stack := { s.stack with inner := (if a = 0 then 0 else b.tmod a) :: rest } }))
    ∧ finalStack (run 10 (loadProgram "12-@" testItp)) = some [-1]
    ∧ finalStack (run 10 (loadProgram "70/@" testItp)) = some [0] := by
  refine ⟨?_, ?_, ?_, ?_, ?_, rfl, rfl⟩ <;> intro hc <;> rw [step_normal_mode s _ hm hc] <;>
    simp [dispatch, add, subtract, multiply, divide, remainder, Stack.pop2, Stack.pop,
      Stack.push, hs]

/-- Claim C7 witness: on the 1x1 grid `+` with stack (top first) `2, 3`,
stepping pushes `5`. -/
theorem c7_arithmetic_ops_witness :
    addState.stack.inner = 2 :: 3 :: []
    ∧ step addState = .ok (move_pc
      { addState with running := true, stack := { addState.stack with inner := (2 + 3) :: [] } }) :=
  ⟨rfl, (c7_arithmetic_ops addState 2 3 [] rfl rfl).1 rfl⟩

/-- Claim C8 (amended): in string-literal mode the quote character toggles
the mode back to Normal, and every other character pushes its character
code truncated to a byte (`instruction as u8`, i.e. the code modulo 256 —
equal to the character code for every character below 256, including
space). -/
theorem c8_string_mode_amended (s : Interpreter) (c : Char) (hm : s.mode = .string)
    (hc : get_instruction s = some c) :
    (c = '"' → step s = .ok (move_pc { s with running := true, mode := .normal }))
    ∧ (c ≠ '"' → step s = .ok (move_pc
      { s with
        running := true
        stack := s.stack.push ((c.toNat % 256 : Nat) : Int) })) := by
  rw [step_string_mode s c hm hc]
  constructor <;> intro h <;> simp [h]

/-- Claim C8 witness: the non-quote cell with character code 256 pushes
`256 % 256 = 0` in string mode. -/
theorem c8_string_mode_amended_witness :
    get_instruction stringModeState = some (Char.ofNat 256)
    ∧ step stringModeState = .ok (move_pc
      { stringModeState with
        running := true
        stack := stringModeState.stack.push (((Char.ofNat 256).toNat % 256 : Nat) : Int) }) :=
  ⟨rfl, (c8_string_mode_amended stringModeState (Char.ofNat 256) rfl rfl).2 (by decide)⟩

/-- Character output preserves the running flag. -/
theorem stateOf_running_output_char (s : Interpreter) :
    ((pop_and_output_char s).stateOf).running = s.running := by
  obtain ⟨⟨inner, d⟩, prog, pc, dir, w, hgt, mode, inp, out, gen, gc, run⟩ := s
  unfold pop_and_output_char pop_ascii
  rcases inner with _ | ⟨v, rest⟩ <;> dsimp only [Stack.pop] <;> split_ifs <;> rfl

/-- The put instruction preserves the running flag on every path. -/
theorem stateOf_running_put (s : Interpreter) :
    ((put s).stateOf).running = s.running := by
  obtain ⟨⟨inner, d⟩, prog, pc, dir, w, hgt, mode, inp, out, gen, gc, run⟩ := s
  unfold put pop_ascii
  rcases inner with _ | ⟨y, _ | ⟨x, _ | ⟨v, rest⟩⟩⟩ <;> dsimp only [Stack.pop] <;>
    split_ifs <;> (try dsimp only) <;> (repeat' split) <;> rfl

/-- The grid-read instruction preserves the running flag on every path. -/
theorem stateOf_running_get (s : Interpreter) :
    ((get_ s).stateOf).running = s.running := by
  obtain ⟨⟨inner, d⟩, prog, pc, dir, w, hgt, mode, inp, out, gen, gc, run⟩ := s
  unfold get_
  rcases inner with _ | ⟨y, _ | ⟨x, rest⟩⟩ <;> dsimp only [Stack.pop] <;>
    (repeat' split) <;> rfl

/-- Integer input preserves the running flag on every path. -/
theorem stateOf_running_get_int (s : Interpreter) :
    ((get_int_and_push s).stateOf).running = s.running := by
  unfold get_int_and_push
  dsimp only
  split <;> rfl

/-- Byte input preserves the running flag on every path. -/
theorem stateOf_running_get_char (s : Interpreter) :
    ((get_char_and_push s).stateOf).running = s.running := by
  unfold get_char_and_push
  split <;> rfl

/-- Pushing a digit preserves the running flag. -/
theorem stateOf_running_push_digit (s : Interpreter) :
    ((push_digit_to_stack s).stateOf).running = s.running := by
  unfold push_digit_to_stack
  split <;> rfl

/-- Advancing the cursor leaves the running flag unchanged. -/
theorem move_pc_running (s : Interpreter) : (move_pc s).running = s.running :=
  (move_pc_fields s).1

/-- The halt instruction's dispatch result. -/
theorem dispatch_at_sign (s : Interpreter) :
    dispatch '@' s = .ok { s with running := false } := rfl

/-- Every instruction other than the halt instruction leaves the running
flag unchanged, whether it succeeds or fails. -/
theorem dispatch_running_of_ne (c : Char) (s : Interpreter) (h : c ≠ '@') :
    ((dispatch c s).stateOf).running = s.running := by
  unfold dispatch
  split <;> first
    | rfl
    | exact absurd rfl h
    | exact stateOf_running_output_char s
    | exact stateOf_running_put s
    | exact stateOf_running_get s
    | exact stateOf_running_get_int s
    | exact stateOf_running_get_char s
    | exact (move_pc_fields s).1
    | ((repeat' split) <;> first | rfl | exact stateOf_running_push_digit s)

/-- Claim C10: for a program grid with at least one row, `step` sets the
running flag at the start of every call, so after an `Ok` return the flag
is false exactly when the fetched character was `@` in Normal mode, after
an `Err` return it is always true, and halting is not latched: both `step`
and `run` ignore the incoming value of the flag, so stepping or running a
halted engine executes the instruction now under the cursor. -/
theorem c10_running_flag (s : Interpreter) (hne : s.program ≠ []) :
    (∀ t, step s = .ok t →
      (t.running = false ↔ (get_instruction s = some '@' ∧ s.mode = .normal)))
    ∧ (∀ e t, step s = .err e t → t.running = true)
    ∧ (∀ b, step { s with running := b } = step s)
    ∧ (∀ b fuel, run fuel { s with running := b } = run fuel s) := by
  have hE : s.program.isEmpty = false := by
    cases hp : s.program with
    | nil => exact absurd hp hne
    | cons l ls => rfl
  have hpanic : get_instruction s = none → step s = .panic := by
    intro hg
    unfold step
    simp only [hE, Bool.false_eq_true, if_false]
    rw [show get_instruction { s with running := true } = get_instruction s from rfl, hg]
  refine ⟨?_, ?_, ?_, ?_⟩
  · intro t h
    rcases hg : get_instruction s with _ | c
    · rw [hpanic hg] at h
      exact StepResult.noConfusion h
    · by_cases hm : s.mode = Mode.string
      · have hmn : ¬(s.mode = Mode.normal) := by
          rw [hm]; exact fun hh => Mode.noConfusion hh
        rw [step_string_mode s c hm hg] at h
        by_cases hq : c = '"'
        · rw [if_pos hq] at h
          simp only [StepResult.ok.injEq] at h
          subst h
          simp [move_pc_running, hmn]
        · rw [if_neg hq] at h
          simp only [StepResult.ok.injEq] at h
          subst h
          simp [move_pc_running, hmn]
      · have hm' : s.mode = Mode.normal := by
          cases hmode : s.mode
          · rfl
          · exact absurd hmode hm
        rw [step_normal_mode s c hm' hg] at h
        cases hd : dispatch c { s with running := true } with
        | error et =>
          rw [hd] at h
          obtain ⟨e2, t2⟩ := et
          simp at h
        | ok t2 =>
          rw [hd] at h
          simp only [StepResult.ok.injEq] at h
          subst h
          by_cases hat : c = '@'
          · subst hat
            rw [dispatch_at_sign] at hd
            injection hd with hd
            subst hd
            simp [move_pc_running, hg, hm']
          · have hr := dispatch_running_of_ne c { s with running := true } hat
            rw [hd] at hr
            simp only [InstrResult.stateOf] at hr
            simp [move_pc_running, hr, hg, hat]
  · intro e t h
    rcases hg : get_instruction s with _ | c
    · rw [hpanic hg] at h
      exact StepResult.noConfusion h
    · by_cases hm : s.mode = Mode.string
      · rw [step_string_mode s c hm hg] at h
        by_cases hq : c = '"' <;> simp [hq] at h
      · have hm' : s.mode = Mode.normal := by
          cases hmode : s.mode
          · rfl
          · exact absurd hmode hm
        rw [step_normal_mode s c hm' hg] at h
        cases hd : dispatch c { s with running := true } with
        | ok t2 =>
          rw [hd] at h
          simp at h
        | error et =>
          rw [hd] at h
          obtain ⟨e2, t2⟩ := et
          simp only [StepResult.err.injEq] at h
          obtain ⟨he, ht⟩ := h
          subst ht
          by_cases hat : c = '@'
          · subst hat
            rw [dispatch_at_sign] at hd
            simp at hd
          · have hr := dispatch_running_of_ne c { s with running := true } hat
            rw [hd] at hr
            simp only [InstrResult.stateOf] at hr
            exact hr
  · intro b
    unfold step
    dsimp only
    simp only [hE, Bool.false_eq_true, if_false]
  · intro b fuel
    unfold run
    dsimp only
    simp only [hE, Bool.false_eq_true, if_false]

/-- Claim C10 witness: on the loaded program `@`, a `step` call ignores a
cleared running flag and behaves exactly as on the running engine. -/
theorem c10_running_flag_witness :
    step { loadProgram "@" testItp with running := false } = step (loadProgram "@" testItp) :=
  (c10_running_flag (loadProgram "@" testItp) (by decide)).2.2.1 false

/-- The seed of a maximum fold is below the result. -/
theorem foldl_max_le_self (l : List Nat) (a : Nat) : a ≤ l.foldl Nat.max a := by
  induction l generalizing a with
  | nil => exact Nat.le_refl a
  | cons x xs ih => exact Nat.le_trans (Nat.le_max_left a x) (ih (Nat.max a x))

/-- Every member of a list is below its maximum fold. -/
theorem le_foldl_max (l : List Nat) (x : Nat) (hx : x ∈ l) (a : Nat) :
    x ≤ l.foldl Nat.max a := by
  induction l generalizing a with
  | nil => cases hx
  | cons y ys ih =>
    rcases List.mem_cons.mp hx with h | h
    · subst h
      exact Nat.le_trans (Nat.le_max_right a x) (foldl_max_le_self ys (Nat.max a x))
    · exact ih h (Nat.max a y)

/-- A line never has more characters than UTF-8 bytes. -/
theorem length_le_lineByteLen (l : List Char) : l.length ≤ lineByteLen l := by
  induction l with
  | nil => exact Nat.le_refl 0
  | cons c cs ih =>
    have hc := Char.utf8Size_pos c
    simp only [lineByteLen, List.map_cons, List.sum_cons, List.length_cons] at ih ⊢
    omega

/-- Setting an index to the value it already holds is the identity. -/
theorem set_getElem_eq_self {α : Type} (l : List α) (i : Nat) (a : α)
    (h : l[i]? = some a) : l.set i a = l := by
  induction l generalizing i with
  | nil => simp at h
  | cons x xs ih =>
    cases i with
    | zero =>
      simp only [List.getElem?_cons_zero, Option.some.injEq] at h
      rw [h]
      rfl
    | succ n =>
      simp only [List.getElem?_cons_succ] at h
      simp only [List.set_cons_succ, ih n h]

/-- The row-copy loop preserves the row length. -/
theorem rowFold_length (cs : List Char) : ∀ (n : Nat) (row : List Char),
    ((cs.enumFrom n).foldl (fun r jc => r.set jc.1 jc.2) row).length = row.length := by
  induction cs with
  | nil => intro n row; rfl
  | cons c cs ih =>
    intro n row
    rw [List.enumFrom_cons, List.foldl_cons, ih (n + 1) (row.set n c), List.length_set]

/-- Cell contents after the row-copy loop: positions covered by the
enumerated characters hold those characters, all others keep the original
row's contents. The hypothesis says every write lands inside the row. -/
theorem rowFold_get (cs : List Char) : ∀ (n j : Nat) (row : List Char),
    n + cs.length ≤ row.length →
    ((cs.enumFrom n).foldl (fun r jc => r.set jc.1 jc.2) row)[j]? =
      if n ≤ j ∧ j < n + cs.length then cs[j - n]? else row[j]? := by
  induction cs with
  | nil =>
    intro n j row h
    rw [if_neg (by simp only [List.length_nil]; omega)]
    rfl
  | cons c cs ih =>
    intro n j row h
    rw [List.enumFrom_cons, List.foldl_cons]
    have hlen : n < row.length := by
      simp only [List.length_cons] at h
      omega
    have h' : n + 1 + cs.length ≤ (row.set n c).length := by
      rw [List.length_set]
      simp only [List.length_cons] at h
      omega
    rw [ih (n + 1) j (row.set n c) h']
    by_cases h1 : n + 1 ≤ j ∧ j < n + 1 + cs.length
    · rw [if_pos h1, if_pos (by simp only [List.length_cons]; omega)]
      have hj : j - n = (j - (n + 1)) + 1 := by omega
      rw [hj, List.getElem?_cons_succ]
    · rw [if_neg h1]
      by_cases h2 : j = n
      · subst h2
        rw [List.getElem?_set]
        rw [if_pos rfl, if_pos hlen, if_pos (by simp only [List.length_cons]; omega)]
        simp
      · rw [List.getElem?_set_ne (fun hh => h2 hh.symm)]
        rw [if_neg (by simp only [List.length_cons]; omega)]

/-- A cell write never changes the number of rows. -/
theorem setCell_length (g : List (List Char)) (i j : Nat) (c : Char) :
    (setCell g i j c).length = g.length := by
  unfold setCell
  split
  · rfl
  · rw [List.length_set]

/-- Folding cell writes into one row never changes the number of rows. -/
theorem innerFold_length (ps : List (Nat × Char)) (i : Nat) : ∀ (g : List (List Char)),
    (ps.foldl (fun g2 jc => setCell g2 i jc.1 jc.2) g).length = g.length := by
  induction ps with
  | nil => intro g; rfl
  | cons p ps ih => intro g; rw [List.foldl_cons, ih, setCell_length]

/-- The whole copy loop never changes the number of rows. -/
theorem outerFold_length (qs : List (Nat × List Char)) : ∀ (g : List (List Char)),
    (qs.foldl
      (fun g1 il => (List.enumFrom 0 il.2).foldl
        (fun g2 jc => setCell g2 il.1 jc.1 jc.2) g1) g).length = g.length := by
  induction qs with
  | nil => intro g; rfl
  | cons q qs ih => intro g; rw [List.foldl_cons, ih, innerFold_length]

/-- The inner copy loop for one row equals a single `List.set` of that row
with the row-level fold, provided the row exists. -/
theorem gridFold_eq_set (cs : List Char) : ∀ (n i : Nat) (g : List (List Char))
    (row : List Char), g[i]? = some row →
    (cs.enumFrom n).foldl (fun g2 jc => setCell g2 i jc.1 jc.2) g =
      g.set i ((cs.enumFrom n).foldl (fun r jc => r.set jc.1 jc.2) row) := by
  induction cs with
  | nil =>
    intro n i g row h
    exact (set_getElem_eq_self g i row h).symm
  | cons c cs ih =>
    intro n i g row h
    rw [List.enumFrom_cons, List.foldl_cons, List.foldl_cons]
    have hic : setCell g i n c = g.set i (row.set n c) := by
      unfold setCell
      simp only [h]
    rw [hic]
    have hlt : i < g.length := by
      rcases List.getElem?_eq_some_iff.mp h with ⟨hl, _⟩
      exact hl
    have h2 : (g.set i (row.set n c))[i]? = some (row.set n c) := by
      rw [List.getElem?_set, if_pos rfl, if_pos hlt]
    rw [ih (n + 1) i (g.set i (row.set n c)) (row.set n c) h2, List.set_set]

/-- Rows after the program-copy loop: row `i` (for `i` within the
enumerated lines, all of which exist in the grid) is the original row
overwritten by line `i`'s characters; all other rows are untouched. -/
theorem outerFold_get (ls : List (List Char)) : ∀ (n : Nat) (g : List (List Char)) (i : Nat),
    (∀ k, k < ls.length → n + k < g.length) →
    ((ls.enumFrom n).foldl
        (fun g1 il => (List.enumFrom 0 il.2).foldl
          (fun g2 jc => setCell g2 il.1 jc.1 jc.2) g1) g)[i]? =
      if n ≤ i ∧ i < n + ls.length
      then (ls[i - n]?).bind (fun cs =>
        (g[i]?).map (fun row => (List.enumFrom 0 cs).foldl (fun r jc => r.set jc.1 jc.2) row))
      else g[i]? := by
  induction ls with
  | nil =>
    intro n g i hb
    rw [if_neg (by simp only [List.length_nil]; omega)]
    rfl
  | cons l ls ih =>
    intro n g i hb
    rw [List.enumFrom_cons, List.foldl_cons]
    have hn : n < g.length := by
      have := hb 0 (by simp only [List.length_cons]; omega)
      omega
    obtain ⟨row, hg⟩ : ∃ row, g[n]? = some row := ⟨_, List.getElem?_eq_getElem hn⟩
    rw [gridFold_eq_set l 0 n g row hg]
    have hb' : ∀ k, k < ls.length →
        (n + 1) + k < (g.set n ((l.enumFrom 0).foldl (fun r jc => r.set jc.1 jc.2) row)).length := by
      intro k hk
      rw [List.length_set]
      have := hb (k + 1) (by simp only [List.length_cons]; omega)
      omega
    rw [ih (n + 1) _ i hb']
    by_cases h1 : n + 1 ≤ i ∧ i < n + 1 + ls.length
    · rw [if_pos h1, if_pos (by simp only [List.length_cons]; omega)]
      have hin : i ≠ n := by omega
      rw [List.getElem?_set_ne (fun hh => hin hh.symm)]
      have hji : i - n = (i - (n + 1)) + 1 := by omega
      rw [hji, List.getElem?_cons_succ]
    · rw [if_neg h1]
      by_cases h2 : i = n
      · subst h2
        rw [if_pos (by simp only [List.length_cons]; omega)]
        rw [List.getElem?_set, if_pos rfl, if_pos hn]
        rw [Nat.sub_self, List.getElem?_cons_zero, hg]
        rfl
      · have hcond : ¬(n ≤ i ∧ i < n + (l :: ls).length) := by
          simp only [List.length_cons]
          omega
        rw [if_neg hcond, List.getElem?_set_ne (fun hh => h2 hh.symm)]

/-- The loader's grid has exactly one row per source line. -/
theorem loadProgram_program_length (text : String) (itp : Interpreter) :
    (loadProgram text itp).program.length = (rustLines text).length := by
  unfold loadProgram writeProgram
  dsimp only
  simp only [List.enum]
  rw [outerFold_length, List.length_replicate]

/-- The loader's grid rows: row `i` is a `width`-long row of spaces
overwritten with line `i`'s characters; there is no row beyond the lines. -/
theorem loadProgram_program_get (text : String) (itp : Interpreter) (i : Nat) :
    (loadProgram text itp).program[i]? =
      if i < (rustLines text).length
      then ((rustLines text)[i]?).map (fun cs =>
        (List.enumFrom 0 cs).foldl (fun r jc => r.set jc.1 jc.2)
          (List.replicate (loadProgram text itp).width ' '))
      else none := by
  unfold loadProgram writeProgram
  dsimp only
  simp only [List.enum]
  rw [outerFold_get (rustLines text) 0 _ i
    (by intro k hk; rw [List.length_replicate]; omega)]
  by_cases hi : i < (rustLines text).length
  · rw [if_pos ⟨Nat.zero_le i, by omega⟩, if_pos hi, Nat.sub_zero,
      List.getElem?_replicate, if_pos hi]
    cases (rustLines text)[i]? <;> rfl
  · rw [if_neg (by omega), if_neg hi, List.getElem?_replicate, if_neg hi]

/-- Claim C3 (amended): for every non-empty program text, `load_program`
builds the space-padded grid — one row per source line, every row of
length `width` (the longest line's byte length), cell `(i, j)` holding the
`j`-th character of line `i` when it exists and a space otherwise — and
sets `width`/`height` accordingly, but it leaves the cursor position,
heading, mode and stack unchanged from the prior state (there is no
reset). -/
theorem c3_load_program_amended (text : String) (itp : Interpreter) (hne : text ≠ "") :
    ((loadProgram text itp).pc = itp.pc)
    ∧ ((loadProgram text itp).direction = itp.direction)
    ∧ ((loadProgram text itp).mode = itp.mode)
    ∧ ((loadProgram text itp).stack = itp.stack)
    ∧ ((loadProgram text itp).height = (rustLines text).length)
    ∧ ((loadProgram text itp).width = ((rustLines text).map lineByteLen).foldl Nat.max 0)
    ∧ ((loadProgram text itp).program.length = (rustLines text).length)
    ∧ (∀ (i : Nat) (row : List Char), (loadProgram text itp).program[i]? = some row →
        row.length = (loadProgram text itp).width)
    ∧ (∀ (i j : Nat) (line : List Char), (rustLines text)[i]? = some line →
        j < (loadProgram text itp).width →
        ((loadProgram text itp).program[i]?).bind (fun r => r[j]?)
          = some (line.getD j ' ')) := by
  have hfits : ∀ line, line ∈ rustLines text →
      line.length ≤ (loadProgram text itp).width := by
    intro line hmem
    refine Nat.le_trans (length_le_lineByteLen line) ?_
    exact le_foldl_max _ _ (List.mem_map_of_mem lineByteLen hmem) 0
  refine ⟨rfl, rfl, rfl, rfl, rfl, rfl, loadProgram_program_length text itp, ?_, ?_⟩
  · intro i row h
    rw [loadProgram_program_get text itp i] at h
    by_cases hi : i < (rustLines text).length
    · rw [if_pos hi] at h
      rcases hline : (rustLines text)[i]? with _ | line
      · rw [hline] at h
        simp at h
      · rw [hline] at h
        simp only [Option.map_some', Option.some.injEq] at h
        rw [← h, rowFold_length, List.length_replicate]
    · rw [if_neg hi] at h
      simp at h
  · intro i j line hline hj
    have hi : i < (rustLines text).length := by
      rcases List.getElem?_eq_some_iff.mp hline with ⟨hl, _⟩
      exact hl
    rw [loadProgram_program_get text itp i, if_pos hi, hline]
    simp only [Option.map_some', Option.some_bind]
    rw [rowFold_get line 0 j (List.replicate (loadProgram text itp).width ' ')
      (by rw [List.length_replicate]; simpa using hfits line (List.getElem?_mem hline))]
    rw [List.getD_eq_getElem?_getD]
    by_cases hjl : j < line.length
    · rw [if_pos ⟨Nat.zero_le j, by omega⟩, Nat.sub_zero,
        List.getElem?_eq_getElem hjl]
      rfl
    · rw [if_neg (by omega), List.getElem?_replicate, if_pos hj,
        List.getElem?_eq_none (by omega)]
      rfl

/-- Claim C3 witness: loading `"ab"` into the fresh test interpreter
leaves the cursor where it was. -/
theorem c3_load_program_amended_witness :
    ("ab" : String) ≠ "" ∧ (loadProgram "ab" testItp).pc = testItp.pc :=
  ⟨by decide, (c3_load_program_amended "ab" testItp (by decide)).1⟩

/-- Claim C9: cursor movement is toroidal on every grid with positive
width and height. Heading Left at column 0 wraps to column `width - 1` of
the same row, Right at the last column wraps to column 0, Up at row 0
wraps to row `height - 1`, Down at the last row wraps to row 0; from any
other position the cursor moves exactly one cell in the current heading
and the other coordinate is unchanged. -/
theorem c9_toroidal_move (s : Interpreter) (hw : 1 ≤ s.width) (hh : 1 ≤ s.height) :
    (s.direction = .left → s.pc.2 = 0 → (move_pc s).pc = (s.pc.1, s.width - 1))
    ∧ (s.direction = .left → s.pc.2 ≠ 0 → (move_pc s).pc = (s.pc.1, s.pc.2 - 1))
    ∧ (s.direction = .right → s.pc.2 = s.width - 1 → (move_pc s).pc = (s.pc.1, 0))
    ∧ (s.direction = .right → s.pc.2 + 1 < s.width → (move_pc s).pc = (s.pc.1, s.pc.2 + 1))
    ∧ (s.direction = .up → s.pc.1 = 0 → (move_pc s).pc = (s.height - 1, s.pc.2))
    ∧ (s.direction = .up → s.pc.1 ≠ 0 → (move_pc s).pc = (s.pc.1 - 1, s.pc.2))
    ∧ (s.direction = .down → s.pc.1 = s.height - 1 → (move_pc s).pc = (0, s.pc.2))
    ∧ (s.direction = .down → s.pc.1 + 1 < s.height → (move_pc s).pc = (s.pc.1 + 1, s.pc.2)) := by
  refine ⟨?_, ?_, ?_, ?_, ?_, ?_, ?_, ?_⟩ <;> intro hd hp <;> simp [move_pc, hd, hp]
  · rw [Nat.sub_add_cancel hw, Nat.mod_self]
  · rw [Nat.mod_eq_of_lt hp]
  · rw [Nat.sub_add_cancel hh, Nat.mod_self]
  · rw [Nat.mod_eq_of_lt hp]

/-- Claim C9 witness: on a 3-wide, 2-tall grid, a cursor at `(0, 0)`
heading Right moves to `(0, 1)`. -/
theorem c9_toroidal_move_witness :
    1 ≤ ({ testItp with width := 3, height := 2 } : Interpreter).width
    ∧ (move_pc { testItp with width := 3, height := 2 }).pc = (0, 1) :=
  ⟨by decide,
    (c9_toroidal_move { testItp with width := 3, height := 2 } (by decide) (by decide)).2.2.2.1
      rfl (by decide)⟩

/-- Claim C1 (code-bug evidence). The cursor-validity invariant fails on a
reachable state: from a fresh interpreter, load `"12"` (a 1x2 grid), make
one successful step (the cursor moves to column 1), then load the smaller
program `"1"` (a 1x1 grid). `load_program` never resets the cursor, so the
reachable state has `pc = (0, 1)` with `width = height = 1`, violating
`col < width`; the next `step`'s fetch `self.program[0][1]` then indexes
out of bounds (a Rust panic). -/
theorem c1_cursor_invariant_code_bug :
    ((afterSteps 1 (loadProgram "12" testItp)).map
        (fun s => ((loadProgram "1" s).pc, (loadProgram "1" s).width, (loadProgram "1" s).height))
      = some ((0, 1), 1, 1))
    ∧ ¬ ((1 : Nat) < 1)
    ∧ ((afterSteps 1 (loadProgram "12" testItp)).map
        (fun s => isPanic (step (loadProgram "1" s))) = some true) := by
  refine ⟨rfl, by decide, rfl⟩

/-- Claim C2 (code-bug evidence). `step` only treats a grid with zero rows
as "no program loaded". Loading the text `"\n"` (only a newline) produces
a grid with one row of width zero; `step` then fetches
`self.program[0][0]` and panics instead of being a no-op returning `Ok`,
and `run` does the same. -/
theorem c2_zero_width_step_code_bug :
    (loadProgram "\n" testItp).program = [[]]
    ∧ (loadProgram "\n" testItp).height = 1
    ∧ (loadProgram "\n" testItp).width = 0
    ∧ isPanic (step (loadProgram "\n" testItp)) = true
    ∧ run 1 (loadProgram "\n" testItp) = some .panic := by
  refine ⟨rfl, rfl, rfl, rfl, rfl⟩

/-- Claim C3 (counterexample). `load_program` does not reset the cursor:
after loading `"12"` and making one successful step the cursor sits at
`(0, 1)`; loading the non-empty program `"34"` leaves it at `(0, 1)`, not
at the claimed `(0, 0)`. -/
theorem c3_no_reset_counterexample :
    ((afterSteps 1 (loadProgram "12" testItp)).map (fun s => (loadProgram "34" s).pc)
      = some (0, 1))
    ∧ ((0, 1) : Nat × Nat) ≠ (0, 0) := by
  refine ⟨rfl, by decide⟩

/-- Claim C4 (counterexample). `load_program` applied to empty input is
not a no-op: after loading `"1"` the grid is 1x1, and loading `""`
replaces the grid by a zero-row grid and zeroes both dimensions. -/
theorem c4_empty_load_counterexample :
    (loadProgram "1" testItp).width = 1
    ∧ (loadProgram "1" testItp).program = [['1']]
    ∧ (loadProgram "" (loadProgram "1" testItp)).width = 0
    ∧ (loadProgram "" (loadProgram "1" testItp)).height = 0
    ∧ (loadProgram "" (loadProgram "1" testItp)).program = [] := by
  refine ⟨rfl, rfl, rfl, rfl, rfl⟩

/-- Claim C4 (amended). Loading empty input replaces the program by the
empty (zero-row) grid and sets both dimensions to zero, while leaving the
stack, cursor position, heading, mode and all other fields untouched. -/
theorem c4_empty_load_amended (s : Interpreter) :
    loadProgram "" s = { s with program := [], width := 0, height := 0 } := rfl

/-- Claim C5 (counterexample). Executing `@` does advance the cursor: on
the program `"1@"`, after the first step the cursor is at `(0, 1)` over
the `@`; the second step (which fetches `@`) clears `running` but moves
the cursor to `(0, 0)` (toroidal advance), so the position is not
unchanged. -/
theorem c5_halt_advances_counterexample :
    ((afterSteps 1 (loadProgram "1@" testItp)).map (fun s => (get_instruction s, s.pc))
      = some (some '@', (0, 1)))
    ∧ ((afterSteps 2 (loadProgram "1@" testItp)).map (fun s => (s.pc, s.running))
      = some ((0, 0), false))
    ∧ ((0, 0) : Nat × Nat) ≠ (0, 1) := by
  refine ⟨rfl, rfl, by decide⟩

/-- Claim C6 (counterexample). With stack (top first) `-1, 3, 1` and the
instruction `p`, the step fails with `InvalidCoordinates x=3 y=-1` after
popping only `y` and `x`: the remaining stack is `[1]`, one element, not
the zero elements the claim's "shrunk by three" predicts. -/
theorem c6_put_two_pops_counterexample :
    putNegState.stack.inner.length = 3
    ∧ ((stepErrState (step putNegState)).map (fun et => (et.1, et.2.stack.inner))
      = some (.invalidCoordinates 3 (-1), [1]))
    ∧ ([1] : List Int).length ≠ 0 := by
  refine ⟨rfl, rfl, by decide⟩

/-- Claim C8 (counterexample). In string mode the pushed value is the
character code truncated to a byte (`instruction as u8`), not the code
itself: the cell character `Ā` has code 256 but pushes 0. -/
theorem c8_truncation_counterexample :
    ((Char.ofNat 256).toNat = 256)
    ∧ ((stepOkState (step stringModeState)).map (fun s => s.stack.inner) = some [0])
    ∧ (some [(0 : Int)] ≠ some [(256 : Int)]) := by
  refine ⟨by decide, rfl, by decide⟩

end Befunge93
